import Mathlib

/-!
# Verification of the step-stone task manager core

Shallow embedding of the repository's core modules:

* `src/task.py`    — `Status`, `Priority`, `TaskInput`, `Task` (construction,
  `mark_updated`, `to_dict`, `from_dict`);
* `src/db_connector.py` — `_prepare_updates`, `MongoDBConnector.get_task`,
  `get_all_tasks`, `update_task` (the Mongo collection is modelled as a list
  of documents, `update_one`/`find_one` with their documented semantics);
* `src/llm_api.py` — `GeminiAPI._convert_response` / `request_subtask`
  (the remote model call is an oracle: the response text is a parameter).

Python's timezone-aware `datetime` is modelled by a calendar-field record
`DateTime` together with executable models of the stdlib operations the code
uses: `isoformat`, `fromisoformat`, `astimezone(timezone.utc)` and instant
comparison.  Only timezone-aware datetimes (fixed minute offsets) are
modelled, which covers every datetime the repository manipulates.
Nondeterministic effects (`uuid.uuid4()`, `datetime.now()`) are passed in as
explicit oracle parameters.
-/

namespace StepStone

/-- Model of the `Status` enum from `src/task.py` (`TODO`, `IN_PROGRESS`, `COMPLETED`). -/
inductive Status where
  | TODO
  | IN_PROGRESS
  | COMPLETED
deriving DecidableEq, Repr

/-- Member name `Status.name` of the Python `Enum` member. -/
def Status.name : Status → String
  | .TODO => "TODO"
  | .IN_PROGRESS => "IN_PROGRESS"
  | .COMPLETED => "COMPLETED"

/-- Model of `Status[s]`: Python `Enum` lookup by member name (`KeyError` → `none`). -/
def Status.fromName : String → Option Status
  | "TODO" => some .TODO
  | "IN_PROGRESS" => some .IN_PROGRESS
  | "COMPLETED" => some .COMPLETED
  | _ => none

/-- Model of the `Priority` enum from `src/task.py` (`LOW`, `MEDIUM`, `HIGH`, `TOP`). -/
inductive Priority where
  | LOW
  | MEDIUM
  | HIGH
  | TOP
deriving DecidableEq, Repr

/-- Member name `Priority.name` of the Python `Enum` member. -/
def Priority.name : Priority → String
  | .LOW => "LOW"
  | .MEDIUM => "MEDIUM"
  | .HIGH => "HIGH"
  | .TOP => "TOP"

/-- Model of `Priority[s]`: Python `Enum` lookup by member name (`KeyError` → `none`). -/
def Priority.fromName : String → Option Priority
  | "LOW" => some .LOW
  | "MEDIUM" => some .MEDIUM
  | "HIGH" => some .HIGH
  | "TOP" => some .TOP
  | _ => none

/-- A timezone-aware Python `datetime`: calendar fields plus a fixed UTC
offset in minutes (`timezone(timedelta(minutes=offsetMinutes))`;
`timezone.utc` is `offsetMinutes = 0`). -/
structure DateTime where
  year : Nat
  month : Nat
  day : Nat
  hour : Nat
  minute : Nat
  second : Nat
  microsecond : Nat
  offsetMinutes : Int
deriving DecidableEq, Repr

/-- Gregorian leap year, as Python's `calendar`/`datetime` use it. -/
def isLeap (y : Nat) : Bool :=
  y % 4 == 0 && (y % 100 != 0 || y % 400 == 0)

/-- Days in a month, as Python `datetime` validates them. -/
def daysInMonth (y m : Nat) : Nat :=
  if m = 2 then (if isLeap y then 29 else 28)
  else if m = 4 ∨ m = 6 ∨ m = 9 ∨ m = 11 then 30
  else 31

/-- The field ranges Python's `datetime` constructor enforces (restricted to
fixed whole-minute offsets, which is all the repository uses). -/
def DateTime.valid (d : DateTime) : Prop :=
  1 ≤ d.year ∧ d.year ≤ 9999 ∧
  1 ≤ d.month ∧ d.month ≤ 12 ∧
  1 ≤ d.day ∧ d.day ≤ daysInMonth d.year d.month ∧
  d.hour ≤ 23 ∧ d.minute ≤ 59 ∧ d.second ≤ 59 ∧
  d.microsecond ≤ 999999 ∧
  -1439 ≤ d.offsetMinutes ∧ d.offsetMinutes ≤ 1439

instance (d : DateTime) : Decidable d.valid := by
  unfold DateTime.valid; infer_instance

/-- Prints `n % 10^k` as exactly `k` decimal digits (most significant
first): the model of Python's `%0kd` zero padding. -/
def padDigits : Nat → Nat → List Char
  | 0, _ => []
  | k + 1, n => Char.ofNat (48 + n / 10 ^ k % 10) :: padDigits k n

/-- Reads exactly `k` decimal digits, accumulating onto `acc`; fails on a
non-digit or premature end of input. -/
def readDigits : Nat → Nat → List Char → Option (Nat × List Char)
  | 0, acc, cs => some (acc, cs)
  | _ + 1, _, [] => none
  | k + 1, acc, c :: cs =>
    if c.isDigit then readDigits k (acc * 10 + (c.toNat - 48)) cs else none

/-- UTC-offset suffix of Python's `datetime.isoformat` for an aware
datetime: sign, two-digit hours, colon, two-digit minutes. -/
def offsetChars (off : Int) : List Char :=
  let sign : Char := if off < 0 then '-' else '+'
  let mag : Nat := off.natAbs
  sign :: (padDigits 2 (mag / 60) ++ ':' :: padDigits 2 (mag % 60))

/-- Python `datetime.isoformat(sep)`: `YYYY-MM-DD{sep}HH:MM:SS[.ffffff]±HH:MM`,
with the `.ffffff` part present exactly when `microsecond ≠ 0`
(`timespec='auto'`).  `str(dt)` is `isoformat` with `sep = ' '`;
`dt.isoformat()` uses `sep = 'T'`. -/
def isoChars (sep : Char) (d : DateTime) : List Char :=
  padDigits 4 d.year ++ '-' :: padDigits 2 d.month ++ '-' :: padDigits 2 d.day ++
  sep :: padDigits 2 d.hour ++ ':' :: padDigits 2 d.minute ++ ':' :: padDigits 2 d.second ++
  (if d.microsecond = 0 then [] else '.' :: padDigits 6 d.microsecond) ++
  offsetChars d.offsetMinutes

/-- Rendering `dt.isoformat()` as a `String` (separator `'T'`). -/
def isoformat (d : DateTime) : String := String.mk (isoChars 'T' d)

/-- Rendering `str(dt)` for a `datetime`: `isoformat` with a space separator. -/
def strOfDateTime (d : DateTime) : String := String.mk (isoChars ' ' d)

/-- Expects the given character at the head of the input. -/
def expectChar (c : Char) : List Char → Option (List Char)
  | [] => none
  | x :: xs => if x = c then some xs else none

/-- Parses the optional fractional-seconds part: `.ffffff` (six digits, as
`isoformat` always prints), or nothing (microsecond `0`). -/
def parseFraction : List Char → Option (Nat × List Char)
  | [] => some (0, [])
  | c :: cs =>
    if c = '.' then
      match readDigits 6 0 cs with
      | some (us, rest) => some (us, rest)
      | none => none
    else some (0, c :: cs)

/-- Parses the UTC-offset suffix: `±HH:MM`, or `Z` (accepted by the
pydantic/speedate parser) for UTC. -/
def parseOffset : List Char → Option (Int × List Char)
  | [] => none
  | c :: cs =>
    if c = 'Z' then some (0, cs)
    else if c = '+' ∨ c = '-' then
      match readDigits 2 0 cs with
      | some (h, rest) =>
        match expectChar ':' rest with
        | some rest₂ =>
          match readDigits 2 0 rest₂ with
          | some (m, rest₃) =>
            let mag : Int := (h * 60 + m : Nat)
            some (if c = '-' then -mag else mag, rest₃)
          | none => none
        | none => none
      | none => none
    else none

/-- Model of `datetime.fromisoformat` on the strings this repository feeds
it (aware datetimes only): positional parse of
`YYYY-MM-DD{T| }HH:MM:SS[.ffffff](±HH:MM|Z)`, with the constructor's range
checks.  Also models the ISO parser pydantic applies to `due_date`. -/
def fromisoChars (cs : List Char) : Option DateTime := do
  let (y, cs) ← readDigits 4 0 cs
  let cs ← expectChar '-' cs
  let (mo, cs) ← readDigits 2 0 cs
  let cs ← expectChar '-' cs
  let (da, cs) ← readDigits 2 0 cs
  match cs with
  | [] => none
  | sep :: cs =>
    if sep = 'T' ∨ sep = ' ' then do
      let (h, cs) ← readDigits 2 0 cs
      let cs ← expectChar ':' cs
      let (mi, cs) ← readDigits 2 0 cs
      let cs ← expectChar ':' cs
      let (s, cs) ← readDigits 2 0 cs
      let (us, cs) ← parseFraction cs
      let (off, cs) ← parseOffset cs
      match cs with
      | [] =>
        let d : DateTime := ⟨y, mo, da, h, mi, s, us, off⟩
        if d.valid then some d else none
      | _ => none
    else none

/-- Model of `datetime.fromisoformat` on a `String`. -/
def fromisoformat (s : String) : Option DateTime := fromisoChars s.data

/-- Days since 1970-01-01 of a Gregorian civil date (the arithmetic Python's
`datetime` performs via its ordinal-day representation; Lean's `/` and `%`
on `Int` are Euclidean, which for the positive divisors used here is the
floor division the algorithm needs). -/
def daysFromCivil (y m d : Int) : Int :=
  let y' := if m ≤ 2 then y - 1 else y
  let era := y' / 400
  let yoe := y' - era * 400
  let mp := (m + 9) % 12
  let doy := (153 * mp + 2) / 5 + d - 1
  let doe := yoe * 365 + yoe / 4 - yoe / 100 + doy
  era * 146097 + doe - 719468

/-- Civil date `(year, month, day)` of a count of days since 1970-01-01
(inverse direction of `daysFromCivil`). -/
def civilFromDays (z : Int) : Int × Int × Int :=
  let z := z + 719468
  let era := z / 146097
  let doe := z - era * 146097
  let yoe := (doe - doe / 1460 + doe / 36524 - doe / 146096) / 365
  let y := yoe + era * 400
  let doy := doe - (365 * yoe + yoe / 4 - yoe / 100)
  let mp := (5 * doy + 2) / 153
  let d := doy - (153 * mp + 2) / 5 + 1
  let m := if mp < 10 then mp + 3 else mp - 9
  (if m ≤ 2 then y + 1 else y, m, d)

/-- The absolute instant a timezone-aware `datetime` denotes, in
microseconds since the epoch.  Python compares and equates aware datetimes
by this instant. -/
def DateTime.toInstant (d : DateTime) : Int :=
  ((daysFromCivil d.year d.month d.day * 24 + d.hour) * 60 + d.minute
      - d.offsetMinutes) * 60000000
    + d.second * 1000000 + d.microsecond

/-- Python's `<` on aware datetimes: comparison of the denoted instants. -/
def DateTime.lt (a b : DateTime) : Prop := a.toInstant < b.toInstant

instance (a b : DateTime) : Decidable (a.lt b) := by
  unfold DateTime.lt; infer_instance

/-- Python's `<=` on aware datetimes. -/
def DateTime.le (a b : DateTime) : Prop := a.toInstant ≤ b.toInstant

instance (a b : DateTime) : Decidable (a.le b) := by
  unfold DateTime.le; infer_instance

/-- Model of `dt.astimezone(timezone.utc)`: the same instant re-expressed with a zero
UTC offset (model of the stdlib conversion). -/
def astimezoneUtc (dt : DateTime) : DateTime :=
  let i := dt.toInstant
  let us := i % 1000000
  let totalSec := i / 1000000
  let days := totalSec / 86400
  let secOfDay := totalSec % 86400
  let c := civilFromDays days
  { year := c.1.toNat, month := c.2.1.toNat, day := c.2.2.toNat
    hour := (secOfDay / 3600).toNat
    minute := (secOfDay / 60 % 60).toNat
    second := (secOfDay % 60).toNat
    microsecond := us.toNat
    offsetMinutes := 0 }

/-- A Python value as it appears in the dictionaries the repository passes
around: strings, ints, `None`, `datetime` objects, and `Status`/`Priority`
enum members. -/
inductive DVal where
  | str (s : String)
  | int (n : Int)
  | none
  | dt (d : DateTime)
  | status (s : Status)
  | priority (p : Priority)
deriving DecidableEq, Repr

/-- A Python `dict` (and a stored Mongo document): an insertion-ordered
association list with distinct keys. -/
abbrev Document := List (String × DVal)

/-- Lookup `key in data` / `data[key]`: first binding of `k`, if any. -/
def dget (d : Document) (k : String) : Option DVal :=
  match d with
  | [] => Option.none
  | (k', v) :: rest => if k' = k then some v else dget rest k

/-- Python truthiness of the values above (`datetime` and enum members are
always truthy; `""`, `0` and `None` are falsy). -/
def DVal.truthy : DVal → Bool
  | .str s => s ≠ ""
  | .int n => n ≠ 0
  | .none => false
  | .dt _ => true
  | .status _ => true
  | .priority _ => true

/-- Python `str(value)` for the values above (`str(dt)` is `isoformat` with
a space separator; `str` of an enum member is `ClassName.MEMBER`). -/
def DVal.pyStr : DVal → String
  | .str s => s
  | .int n => toString n
  | .none => "None"
  | .dt d => strOfDateTime d
  | .status s => "Status." ++ s.name
  | .priority p => "Priority." ++ p.name

/-- The nondeterministic inputs of one `Task(...)` construction:
`uuid.uuid4()` for `_id` and `datetime.now(timezone.utc)`, modelled as an
oracle value. -/
structure AuditGen where
  freshId : String
  now : DateTime
deriving DecidableEq, Repr

/-- The `Task` dataclass of `src/task.py`: seven `init` fields and three
audit fields (`_id`, `_created_at`, `_updated_at`). -/
structure Task where
  title : String
  body : String
  parent_id : Option String
  status : Status
  priority : Priority
  due_date : Option DateTime
  estimated_time : Int
  _id : String
  _created_at : DateTime
  _updated_at : DateTime
deriving DecidableEq, Repr

/-- Model of `Task(title, body, parent_id, status, priority, due_date,
estimated_time)`: the generated `__init__` plus `__post_init__`, which sets
`_id` from `uuid4` and `_created_at = _updated_at = datetime.now(timezone.utc)`
(both taken from the oracle `g`).  No field is validated. -/
def mkTask (title body : String) (parent_id : Option String) (status : Status)
    (priority : Priority) (due_date : Option DateTime) (estimated_time : Int)
    (g : AuditGen) : Task :=
  ⟨title, body, parent_id, status, priority, due_date, estimated_time,
    g.freshId, g.now, g.now⟩

/-- Model of `Task(title)` with every optional argument left at its dataclass
default. -/
def mkTaskDefault (title : String) (g : AuditGen) : Task :=
  mkTask title "" Option.none .TODO .MEDIUM Option.none 0 g

/-- Model of `task.mark_updated()`: overwrites `_updated_at` with the current clock
reading (oracle parameter `now`). -/
def Task.mark_updated (t : Task) (now : DateTime) : Task :=
  { t with _updated_at := now }

/-- Model of `task.__str__()`: the dedented, stripped display string used as the LLM
prompt. -/
def Task.displayStr (t : Task) : String :=
  "Task Title: " ++ t.title ++ "\n" ++
  "Body: " ++ t.body ++ "\n" ++
  "Status: " ++ (DVal.status t.status).pyStr ++ "\n" ++
  "Priority: " ++ (DVal.priority t.priority).pyStr ++ "\n" ++
  "Due Date: " ++ (match t.due_date with
    | some d => strOfDateTime d
    | Option.none => "None") ++ "\n" ++
  "Estimated time: " ++ toString t.estimated_time

/-- Model of `Task.to_dict`: `asdict(self)` (all ten fields, in declaration order),
then `status`/`priority` replaced by their `.name`, `due_date` by its
`isoformat` when not `None`, and `_created_at`/`_updated_at` by their
`isoformat`. -/
def Task.to_dict (t : Task) : Document :=
  [("title", .str t.title),
   ("body", .str t.body),
   ("parent_id", match t.parent_id with
     | some s => .str s
     | Option.none => .none),
   ("status", .str t.status.name),
   ("priority", .str t.priority.name),
   ("due_date", match t.due_date with
     | some d => .str (isoformat d)
     | Option.none => .none),
   ("estimated_time", .int t.estimated_time),
   ("_id", .str t._id),
   ("_created_at", .str (isoformat t._created_at)),
   ("_updated_at", .str (isoformat t._updated_at))]

/-- A stored value expected to be a `str`.  Python's dataclass would accept
any value here untyped; the repository only ever stores strings in these
slots, and the model reports a type error otherwise. -/
def DVal.asStr : DVal → Except String String
  | .str s => .ok s
  | _ => .error "type error: expected str"

/-- Model of `Task.from_dict(data)`: reads the seven init fields from `data` when
present (converting `status`/`priority` through `Enum[name]` and a truthy
`due_date` through `datetime.fromisoformat(str(value))`), calls
`cls(**init_data)` — which demands `title` and generates fresh audit values
via the oracle `g` — then overrides `_id`, `_created_at`, `_updated_at`
from `data` when present (`fromisoformat` on the timestamps, which requires
a string).  Any conversion failure (`KeyError`, `ValueError`, `TypeError`)
is an `Except.error`. -/
def Task.from_dict (g : AuditGen) (data : Document) : Except String Task := do
  let title ← match dget data "title" with
    | some v => v.asStr
    | Option.none => .error "TypeError: missing required argument title"
  let body ← match dget data "body" with
    | some v => v.asStr
    | Option.none => .ok ""
  let parent_id ← match dget data "parent_id" with
    | some (.str s) => .ok (some s)
    | some .none => .ok Option.none
    | some _ => .error "type error: parent_id"
    | Option.none => .ok Option.none
  let status ← match dget data "status" with
    | some (.str s) =>
      match Status.fromName s with
      | some st => .ok st
      | Option.none => .error "KeyError: status"
    | some _ => .error "KeyError: status"
    | Option.none => .ok Status.TODO
  let priority ← match dget data "priority" with
    | some (.str s) =>
      match Priority.fromName s with
      | some p => .ok p
      | Option.none => .error "KeyError: priority"
    | some _ => .error "KeyError: priority"
    | Option.none => .ok Priority.MEDIUM
  let due_date ← match dget data "due_date" with
    | some v =>
      if v.truthy then
        match fromisoformat v.pyStr with
        | some d => .ok (some d)
        | Option.none => .error "ValueError: due_date"
      else
        match v with
        | .none => .ok Option.none
        | _ => .error "type error: due_date"
    | Option.none => .ok Option.none
  let estimated_time ← match dget data "estimated_time" with
    | some (.int n) => .ok n
    | some _ => .error "type error: estimated_time"
    | Option.none => .ok (0 : Int)
  let _id ← match dget data "_id" with
    | some v => v.asStr
    | Option.none => .ok g.freshId
  let _created_at ← match dget data "_created_at" with
    | some (.str s) =>
      match fromisoformat s with
      | some d => .ok d
      | Option.none => .error "ValueError: _created_at"
    | some _ => .error "TypeError: fromisoformat argument"
    | Option.none => .ok g.now
  let _updated_at ← match dget data "_updated_at" with
    | some (.str s) =>
      match fromisoformat s with
      | some d => .ok d
      | Option.none => .error "ValueError: _updated_at"
    | some _ => .error "TypeError: fromisoformat argument"
    | Option.none => .ok g.now
  .ok ⟨title, body, parent_id, status, priority, due_date, estimated_time,
    _id, _created_at, _updated_at⟩

/-- Variant of `Task.from_dict` applied to the result of a lookup that may have
returned `None` (`from_dict(None)` raises a `TypeError` on `key in data`). -/
def Task.from_dict_opt (g : AuditGen) (data : Option Document) : Except String Task :=
  match data with
  | some d => Task.from_dict g d
  | Option.none => .error "TypeError: argument of type NoneType is not iterable"

/-- The ten dictionary keys `from_dict` consults: the seven init-field
names and the three audit-field names of the dataclass. -/
def taskFieldKeys : List String :=
  ["title", "body", "parent_id", "status", "priority", "due_date",
   "estimated_time", "_id", "_created_at", "_updated_at"]

/-! ## Subtask generation pipeline (`src/llm_api.py`) -/

/-- A JSON value, as produced by parsing the model's response text. -/
inductive JVal where
  | str (s : String)
  | num (n : Int)
  | bool (b : Bool)
  | null
  | arr (xs : List JVal)
  | obj (fields : List (String × JVal))

/-- The model's raw response text, as seen by the JSON parser inside
`pydantic.TypeAdapter(...).validate_json`: either malformed (not JSON) or a
parsed JSON value.  The parser itself is external library code. -/
inductive Raw where
  | malformed
  | json (v : JVal)

/-- First binding of `k` in a JSON object's field list. -/
def jLookup (fields : List (String × JVal)) (k : String) : Option JVal :=
  match fields with
  | [] => Option.none
  | (k', v) :: rest => if k' = k then some v else jLookup rest k

/-- The `TaskInput` pydantic model of `src/task.py`: the LLM-facing subset
(`title` required; `body` default `""`; `due_date` optional datetime;
`estimated_time` default `0`). -/
structure TaskInput where
  title : String
  body : String
  due_date : Option DateTime
  estimated_time : Int
deriving DecidableEq, Repr

/-- Validation of one JSON array element against `TaskInput`.  `title` is
required and must be a string; `body` defaults to `""`; `due_date` parses
an ISO-8601 string (or is `null`/absent); `estimated_time` defaults to `0`.
Keys that are not `TaskInput` fields are ignored (pydantic's default
`extra='ignore'` configuration, which `TaskInput` does not override). -/
def validateTaskInput : JVal → Except String TaskInput
  | .obj fields => do
    let title ← match jLookup fields "title" with
      | some (.str s) => Except.ok s
      | some _ => .error "title: Input should be a valid string"
      | Option.none => .error "title: Field required"
    let body ← match jLookup fields "body" with
      | some (.str s) => .ok s
      | some _ => .error "body: Input should be a valid string"
      | Option.none => .ok ""
    let due_date ← match jLookup fields "due_date" with
      | some (.str s) =>
        (match fromisoformat s with
          | some d => .ok (some d)
          | Option.none => .error "due_date: Input should be a valid datetime")
      | some .null => .ok Option.none
      | some _ => .error "due_date: Input should be a valid datetime"
      | Option.none => .ok Option.none
    let estimated_time ← match jLookup fields "estimated_time" with
      | some (.num n) => .ok n
      | some _ => .error "estimated_time: Input should be a valid integer"
      | Option.none => .ok (0 : Int)
    .ok ⟨title, body, due_date, estimated_time⟩
  | _ => .error "Input should be a valid dictionary"

/-- Model of `pydantic.TypeAdapter(List[TaskInput]).validate_json(response.text)`:
the text must parse as a JSON array and every element must validate; the
first failing element fails the whole call. -/
def validateTaskInputList : Raw → Except String (List TaskInput)
  | .malformed => .error "Invalid JSON"
  | .json (.arr xs) => xs.mapM validateTaskInput
  | .json _ => .error "Input should be a valid list"

/-- Model of `task_input_model.model_dump()`: the dict with the four `TaskInput`
fields (`due_date` as a `datetime` object or `None`). -/
def TaskInput.model_dump (ti : TaskInput) : Document :=
  [("title", .str ti.title),
   ("body", .str ti.body),
   ("due_date", match ti.due_date with
     | some d => .dt d
     | Option.none => .none),
   ("estimated_time", .int ti.estimated_time)]

/-- Model of `GeminiAPI._convert_response`: validate the response text as a JSON
array of `TaskInput`, then build one `Task` per element via
`Task.from_dict(model_dump(...))`; the i-th construction draws its fresh
id and timestamps from `gen i`. -/
def convert_response (gen : Nat → AuditGen) (raw : Raw) : Except String (List Task) := do
  let validated ← validateTaskInputList raw
  validated.enum.mapM (fun p => Task.from_dict (gen p.1) p.2.model_dump)

/-- Model of `GeminiAPI.request_subtask(parent_task)`: builds the prompt with
`_convert_task` (= `str(parent_task)`), calls the external model (the
oracle `model`, mapping prompt text to raw response), and converts the
response.  Parse/validation failures propagate to the caller. -/
def request_subtask (gen : Nat → AuditGen) (model : String → Raw)
    (parent_task : Task) : Except String (List Task) :=
  convert_response gen (model parent_task.displayStr)

/-! ## Storage gateway (`src/db_connector.py`) -/

/-- Value normalization inside `_prepare_updates`: enum members become
their `.name`, datetimes are converted with `astimezone(timezone.utc)`,
everything else passes through. -/
def prepVal : DVal → DVal
  | .status s => .str s.name
  | .priority p => .str p.name
  | .dt d => .dt (astimezoneUtc d)
  | v => v

/-- Model of `_prepare_updates(updates)`: drops the keys `'_id'` and `'created_at'`
(the literal strings the source tests for) and normalizes the remaining
values with `prepVal`. -/
def _prepare_updates : Document → Document
  | [] => []
  | (k, v) :: rest =>
    if k = "_id" ∨ k = "created_at" then _prepare_updates rest
    else (k, prepVal v) :: _prepare_updates rest

/-- Mongo `collection.find_one({"_id": task_id})` over a collection
modelled as a list of documents: the first document whose `_id` field is
the given string. -/
def find_one : List Document → String → Option Document
  | [], _ => Option.none
  | d :: ds, task_id =>
    if dget d "_id" = some (.str task_id) then some d else find_one ds task_id

/-- Model of `MongoDBConnector.get_task(task_id)`: `find_one` then
`Task.from_dict` inside one `try`; on any failure (including
`from_dict(None)` when nothing matched) one diagnostic is printed and
`None` is returned.  The second component counts printed diagnostics. -/
def get_task (g : AuditGen) (coll : List Document) (task_id : String) :
    Option Task × Nat :=
  match Task.from_dict_opt g (find_one coll task_id) with
  | .ok t => (some t, 0)
  | .error _ => (Option.none, 1)

/-- Loop body of `get_all_tasks`: the whole `for` loop runs inside a single
`try`, so the first document whose reconstruction raises ends the loop and
the tasks accumulated so far are returned. -/
def get_all_tasks_go (gen : Nat → AuditGen) : Nat → List Document → List Task → List Task
  | _, [], acc => acc.reverse
  | i, d :: ds, acc =>
    match Task.from_dict (gen i) d with
    | .ok t => get_all_tasks_go gen (i + 1) ds (t :: acc)
    | .error _ => acc.reverse

/-- Model of `MongoDBConnector.get_all_tasks()`: scan the whole collection,
reconstructing each document; the i-th reconstruction draws its oracle
from `gen i`. -/
def get_all_tasks (gen : Nat → AuditGen) (docs : List Document) : List Task :=
  get_all_tasks_go gen 0 docs []

/-- Declarative rendering of what `get_all_tasks` actually computes: the
tasks reconstructed from the longest prefix of documents on which
`from_dict` succeeds; the first failing document and everything after it
are dropped. -/
def tasksOfCleanRun (gen : Nat → AuditGen) : Nat → List Document → List Task
  | _, [] => []
  | i, d :: ds =>
    match Task.from_dict (gen i) d with
    | .ok t => t :: tasksOfCleanRun gen (i + 1) ds
    | .error _ => []

/-- Mongo's `$set` on one document: each listed field is overwritten in
place if present, appended otherwise. -/
def setField : Document → String → DVal → Document
  | [], k, v => [(k, v)]
  | (k', v') :: rest, k, v =>
    if k' = k then (k, v) :: rest else (k', v') :: setField rest k v

/-- Applies a `$set` payload to a document, field by field. -/
def applySet (d : Document) (sets : Document) : Document :=
  sets.foldl (fun acc kv => setField acc kv.1 kv.2) d

/-- Mongo `collection.update_one(filter={"_id": id}, update={"$set": sets})`:
rewrites the first matching document; `modified_count` (second component)
is `1` exactly when a matching document existed and the `$set` actually
changed it. -/
def update_one : List Document → String → Document → List Document × Nat
  | [], _, _ => ([], 0)
  | d :: ds, task_id, sets =>
    if dget d "_id" = some (.str task_id) then
      let d' := applySet d sets
      (d' :: ds, if d' = d then 0 else 1)
    else
      let r := update_one ds task_id sets
      (d :: r.1, r.2)

/-- Outcome of `update_task`: the returned boolean, the collection
afterwards, and how many storage round trips were issued. -/
structure UpdateResult where
  ok : Bool
  coll : List Document
  storageCalls : Nat
deriving DecidableEq, Repr

/-- Model of `MongoDBConnector.update_task(task_id, updates)`: sanitize through
`_prepare_updates`; an empty result returns `False` with no storage call;
otherwise one `update_one` with a `$set` of the sanitized payload, and the
returned boolean is `modified_count == 1`. -/
def update_task (coll : List Document) (task_id : String) (updates : Document) :
    UpdateResult :=
  let prepared := _prepare_updates updates
  if prepared = [] then ⟨false, coll, 0⟩
  else
    let r := update_one coll task_id prepared
    ⟨r.2 == 1, r.1, 1⟩



/-! ## Auxiliary definitions and concrete example values -/

/-- Restriction of a document to the keys `Task.from_dict` consults; keys
outside this set are the "extra" keys the claims speak about. -/
def removeExtraKeys (d : Document) : Document :=
  d.filter (fun kv => taskFieldKeys.contains kv.1)

/-- The four field names of the `TaskInput` pydantic model. -/
def taskInputKeys : List String := ["title", "body", "due_date", "estimated_time"]

/-- A concrete UTC datetime used in example runs. -/
def exDT1 : DateTime := ⟨2025, 10, 31, 10, 0, 0, 0, 0⟩

/-- A later concrete UTC datetime (microseconds nonzero). -/
def exDT2 : DateTime := ⟨2025, 12, 25, 12, 0, 0, 500, 0⟩

/-- A concrete audit oracle. -/
def exGen0 : AuditGen := ⟨"id-0", exDT1⟩

/-- A concrete per-construction oracle stream. -/
def exGen : Nat → AuditGen := fun i => ⟨"id-" ++ toString i, exDT1⟩

/-- A concrete parent task, with `_id = "parent-id"`. -/
def exParent : Task :=
  mkTask "Parent Task" "Parent description" Option.none .TODO .MEDIUM Option.none 0
    ⟨"parent-id", exDT1⟩

/-- A model oracle answering every prompt with the JSON array
`[{"title": "Subtask 1"}]`. -/
def exModel : String → Raw :=
  fun _ => .json (.arr [.obj [("title", .str "Subtask 1")]])

/-- A stored document whose reconstruction fails (unrecognized status
name, so `Status[...]` raises `KeyError`). -/
def exBadDoc : Document := [("title", DVal.str "B"), ("status", DVal.str "NOT_A_STATUS")]

/-- A stored document that reconstructs cleanly. -/
def exGoodDoc : Document := [("title", DVal.str "G")]

/-- A fully populated concrete task. -/
def tEx : Task :=
  mkTask "Write Report" "Draft the Q3 financial summary." (some "parent-1") .IN_PROGRESS
    .HIGH (some exDT2) 120 exGen0

/-! ## Round-trip lemmas for the datetime printer/parser -/

theorem digitChar_isDigit {d : Nat} (h : d < 10) : (Char.ofNat (48 + d)).isDigit = true := by
  interval_cases d <;> decide

theorem digitChar_toNat {d : Nat} (h : d < 10) : (Char.ofNat (48 + d)).toNat = 48 + d := by
  interval_cases d <;> decide

theorem readDigits_padDigits (k : Nat) :
    ∀ (acc n : Nat) (rest : List Char),
      readDigits k acc (padDigits k n ++ rest) = some (acc * 10 ^ k + n % 10 ^ k, rest) := by
  induction k with
  | zero => intro acc n rest; simp [readDigits, padDigits, Nat.mod_one]
  | succ k ih =>
    intro acc n rest
    have hd : n / 10 ^ k % 10 < 10 := Nat.mod_lt _ (by norm_num)
    simp only [padDigits, readDigits, List.cons_append, digitChar_isDigit hd, if_pos,
      digitChar_toNat hd, List.append_eq, Nat.add_sub_cancel_left]
    rw [ih]
    congr 2
    have h10 : 10 ^ (k + 1) = 10 ^ k * 10 := pow_succ 10 k
    have hP : 0 < 10 ^ k := Nat.pos_pow_of_pos k (by norm_num)
    have hsplit : n % (10 ^ k * 10) = 10 ^ k * (n / 10 ^ k % 10) + n % 10 ^ k := by
      have h1 : n % (10 ^ k * 10) = (10 ^ k * 10 * (n / (10 ^ k * 10))
          + (10 ^ k * (n / 10 ^ k % 10) + n % 10 ^ k)) % (10 ^ k * 10) := by
        congr 1
        have e1 : n / 10 ^ k = 10 * (n / (10 ^ k * 10)) + n / 10 ^ k % 10 := by
          rw [← Nat.div_div_eq_div_mul]
          omega
        have e2 : n = 10 ^ k * (n / 10 ^ k) + n % 10 ^ k := (Nat.div_add_mod n (10 ^ k)).symm
        calc n = 10 ^ k * (n / 10 ^ k) + n % 10 ^ k := e2
          _ = 10 ^ k * (10 * (n / (10 ^ k * 10)) + n / 10 ^ k % 10) + n % 10 ^ k := by rw [← e1]
          _ = 10 ^ k * 10 * (n / (10 ^ k * 10))
              + (10 ^ k * (n / 10 ^ k % 10) + n % 10 ^ k) := by ring
      have hlt : 10 ^ k * (n / 10 ^ k % 10) + n % 10 ^ k < 10 ^ k * 10 := by
        have b1 : n / 10 ^ k % 10 ≤ 9 := by omega
        have b2 : n % 10 ^ k < 10 ^ k := Nat.mod_lt _ hP
        nlinarith
      rw [h1, Nat.mul_add_mod, Nat.mod_eq_of_lt hlt]
    rw [h10, hsplit]
    ring

theorem readDigits_padDigits_of_lt {k n : Nat} (h : n < 10 ^ k) (rest : List Char) :
    readDigits k 0 (padDigits k n ++ rest) = some (n, rest) := by
  rw [readDigits_padDigits]
  simp [Nat.mod_eq_of_lt h]

theorem expectChar_cons (c : Char) (cs : List Char) : expectChar c (c :: cs) = some cs := by
  simp [expectChar]

theorem parseFraction_not_dot {c : Char} (h : ¬c = '.') (cs : List Char) :
    parseFraction (c :: cs) = some (0, c :: cs) := by
  simp [parseFraction, h]

theorem parseFraction_dot {us : Nat} (h : us < 10 ^ 6) (rest : List Char) :
    parseFraction ('.' :: (padDigits 6 us ++ rest)) = some (us, rest) := by
  simp [parseFraction, readDigits_padDigits_of_lt h]

theorem parseOffset_offsetChars {off : Int} (h1 : -1439 ≤ off) (h2 : off ≤ 1439)
    (rest : List Char) : parseOffset (offsetChars off ++ rest) = some (off, rest) := by
  have hm : off.natAbs ≤ 1439 := by omega
  have hdiv : off.natAbs / 60 < 10 ^ 2 := by omega
  have hmod : off.natAbs % 60 < 10 ^ 2 := by omega
  by_cases hneg : off < 0
  · simp only [offsetChars, hneg, if_true, List.cons_append, parseOffset]
    rw [if_neg (by decide)]
    simp only [or_true, if_true]
    rw [List.append_assoc, readDigits_padDigits_of_lt hdiv]
    simp only [List.cons_append, expectChar_cons]
    rw [readDigits_padDigits_of_lt hmod]
    simp only [if_pos rfl]
    congr 1
    congr 1
    have : off.natAbs / 60 * 60 + off.natAbs % 60 = off.natAbs := by omega
    rw [this]
    omega
  · simp only [offsetChars, hneg, if_false, List.cons_append, parseOffset]
    rw [if_neg (by decide)]
    simp only [true_or, if_true]
    rw [List.append_assoc, readDigits_padDigits_of_lt hdiv]
    simp only [List.cons_append, expectChar_cons]
    rw [readDigits_padDigits_of_lt hmod]
    simp only [show ('+' = '-') = False from by decide, if_false]
    congr 1
    congr 1
    have : off.natAbs / 60 * 60 + off.natAbs % 60 = off.natAbs := by omega
    rw [this]
    omega
theorem parseFraction_offsetChars (off : Int) :
    parseFraction (offsetChars off) = some (0, offsetChars off) := by
  unfold offsetChars
  exact parseFraction_not_dot (by split <;> decide) _

theorem parseOffset_offsetChars_nil {off : Int} (h1 : -1439 ≤ off) (h2 : off ≤ 1439) :
    parseOffset (offsetChars off) = some (off, []) := by
  have := parseOffset_offsetChars h1 h2 []
  simpa using this

theorem daysInMonth_le (y m : Nat) : daysInMonth y m ≤ 31 := by
  unfold daysInMonth
  split
  · split <;> omega
  · split <;> omega

theorem optBind_some {α β : Type} (a : α) (f : α → Option β) :
    (some a : Option α) >>= f = f a := rfl

theorem fromisoChars_isoChars {d : DateTime} (h : d.valid) {sep : Char}
    (hsep : sep = 'T' ∨ sep = ' ') : fromisoChars (isoChars sep d) = some d := by
  obtain ⟨y, mo, da, hh, mi, ss, us, off⟩ := d
  simp only [DateTime.valid] at h
  obtain ⟨hy1, hy2, hmo1, hmo2, hda1, hda2, hhh, hmi, hss, hus, ho1, ho2⟩ := h
  have hdim := daysInMonth_le y mo
  have hy : y < 10 ^ 4 := by omega
  have hmo : mo < 10 ^ 2 := by omega
  have hda : da < 10 ^ 2 := by omega
  have hhh2 : hh < 10 ^ 2 := by omega
  have hmi2 : mi < 10 ^ 2 := by omega
  have hss2 : ss < 10 ^ 2 := by omega
  have hvalid : DateTime.valid ⟨y, mo, da, hh, mi, ss, us, off⟩ :=
    ⟨hy1, hy2, hmo1, hmo2, hda1, hda2, hhh, hmi, hss, hus, ho1, ho2⟩
  by_cases husz : us = 0
  · subst husz
    simp only [isoChars, if_pos rfl, List.nil_append, List.append_assoc, List.cons_append,
      fromisoChars]
    rw [readDigits_padDigits_of_lt hy]
    simp only [optBind_some, expectChar_cons]
    rw [readDigits_padDigits_of_lt hmo]
    simp only [optBind_some, expectChar_cons]
    rw [readDigits_padDigits_of_lt hda]
    simp only [optBind_some, if_pos hsep]
    rw [readDigits_padDigits_of_lt hhh2]
    simp only [optBind_some, expectChar_cons]
    rw [readDigits_padDigits_of_lt hmi2]
    simp only [optBind_some, expectChar_cons]
    rw [readDigits_padDigits_of_lt hss2]
    simp only [optBind_some, if_true, List.nil_append]
    rw [parseFraction_offsetChars]
    simp only [optBind_some]
    rw [parseOffset_offsetChars_nil ho1 ho2]
    simp only [optBind_some, if_pos hvalid]
  · have hus6 : us < 10 ^ 6 := by omega
    simp only [isoChars, if_neg husz, List.append_assoc, List.cons_append,
      fromisoChars]
    rw [readDigits_padDigits_of_lt hy]
    simp only [optBind_some, expectChar_cons]
    rw [readDigits_padDigits_of_lt hmo]
    simp only [optBind_some, expectChar_cons]
    rw [readDigits_padDigits_of_lt hda]
    simp only [optBind_some, if_pos hsep]
    rw [readDigits_padDigits_of_lt hhh2]
    simp only [optBind_some, expectChar_cons]
    rw [readDigits_padDigits_of_lt hmi2]
    simp only [optBind_some, expectChar_cons]
    rw [readDigits_padDigits_of_lt hss2]
    simp only [optBind_some]
    rw [parseFraction_dot hus6]
    simp only [optBind_some]
    rw [parseOffset_offsetChars_nil ho1 ho2]
    simp only [optBind_some, if_pos hvalid]


/-- Parsing `fromisoformat` inverts `isoformat` on every valid datetime (the
serialization contract's timestamp leg, microseconds and offset included). -/
theorem fromisoformat_isoformat {d : DateTime} (h : d.valid) :
    fromisoformat (isoformat d) = some d :=
  fromisoChars_isoChars h (Or.inl rfl)

/-- Parsing `fromisoformat` also inverts `str(dt)` (space-separated isoformat). -/
theorem fromisoformat_strOfDateTime {d : DateTime} (h : d.valid) :
    fromisoformat (strOfDateTime d) = some d :=
  fromisoChars_isoChars h (Or.inr rfl)

/-- The rendering of a datetime is never the empty string. -/
theorem isoformat_ne_empty (d : DateTime) : isoformat d ≠ "" := by
  simp only [isoformat, ne_eq, String.ext_iff]
  show ¬isoChars 'T' d = "".data
  simp [isoChars, padDigits]


/-! ## Helper lemmas about the embedded operations -/

theorem exceptBind_ok {ε α β : Type} (a : α) (f : α → Except ε β) :
    (Except.ok a : Except ε α) >>= f = f a := rfl

theorem exceptBind_error {ε α β : Type} (e : ε) (f : α → Except ε β) :
    (Except.error e : Except ε α) >>= f = Except.error e := rfl

theorem statusFromName_name (s : Status) : Status.fromName s.name = some s := by
  cases s <;> rfl

theorem priorityFromName_name (p : Priority) : Priority.fromName p.name = some p := by
  cases p <;> rfl

theorem truthy_isoformat (d : DateTime) : DVal.truthy (.str (isoformat d)) = true := by
  simp [DVal.truthy, isoformat_ne_empty d]

theorem dget_removeExtraKeys (d : Document) (k : String)
    (hk : taskFieldKeys.contains k = true) :
    dget (removeExtraKeys d) k = dget d k := by
  induction d with
  | nil => rfl
  | cons kv rest ih =>
    obtain ⟨k0, v⟩ := kv
    by_cases hkk : k0 = k
    · subst hkk
      simp only [removeExtraKeys, List.filter_cons, hk, reduceIte, dget, if_pos]
    · cases hc : taskFieldKeys.contains k0 with
      | true =>
        simp only [removeExtraKeys, List.filter_cons, hc, reduceIte, dget, if_neg hkk]
        exact ih
      | false =>
        simp only [removeExtraKeys, List.filter_cons, hc, reduceIte, dget, if_neg hkk]
        exact ih

theorem get_all_tasks_go_eq (gen : Nat → AuditGen) (docs : List Document) :
    ∀ (i : Nat) (acc : List Task),
      get_all_tasks_go gen i docs acc = acc.reverse ++ tasksOfCleanRun gen i docs := by
  induction docs with
  | nil => intro i acc; simp [get_all_tasks_go, tasksOfCleanRun]
  | cons d ds ih =>
    intro i acc
    simp only [get_all_tasks_go, tasksOfCleanRun]
    cases hfd : Task.from_dict (gen i) d with
    | ok t => simp [ih]
    | error e => simp

theorem prepare_updates_filter_map (updates : Document) :
    _prepare_updates updates =
      (updates.filter (fun kv => !(kv.1 == "_id" || kv.1 == "created_at"))).map
        (fun kv => (kv.1, prepVal kv.2)) := by
  induction updates with
  | nil => rfl
  | cons kv rest ih =>
    obtain ⟨k, v⟩ := kv
    by_cases h : k = "_id" ∨ k = "created_at"
    · have hb : (!(k == "_id" || k == "created_at")) = false := by
        rcases h with h | h <;> subst h <;> simp
      simp only [_prepare_updates, if_pos h, List.filter_cons, hb, reduceIte]
      exact ih
    · have hb : (!(k == "_id" || k == "created_at")) = true := by
        push_neg at h
        simp [h.1, h.2]
      simp only [_prepare_updates, if_neg h, List.filter_cons, hb, reduceIte, List.map_cons]
      rw [ih]

theorem dget_prepare_updates_dropped (updates : Document) (k : String)
    (hk : k = "_id" ∨ k = "created_at") :
    dget (_prepare_updates updates) k = Option.none := by
  induction updates with
  | nil => rfl
  | cons kv rest ih =>
    obtain ⟨k0, v⟩ := kv
    by_cases h : k0 = "_id" ∨ k0 = "created_at"
    · simp only [_prepare_updates, if_pos h]
      exact ih
    · have hne : k0 ≠ k := by rcases hk with hk | hk <;> subst hk <;> tauto
      simp only [_prepare_updates, if_neg h, dget, if_neg hne]
      exact ih

theorem mapM_error_of_mem {α β : Type} (f : α → Except String β) :
    ∀ (xs : List α) (x : α), x ∈ xs → (∃ e0, f x = Except.error e0) →
      ∃ e, xs.mapM f = Except.error e := by
  intro xs
  induction xs with
  | nil => intro x hx; cases hx
  | cons a as ih =>
    intro x hx he
    obtain ⟨e0, he0⟩ := he
    rw [List.mapM_cons]
    rcases List.mem_cons.mp hx with h | h
    · subst h
      rw [he0, exceptBind_error]
      exact ⟨e0, rfl⟩
    · cases hfa : f a with
      | error e1 => rw [exceptBind_error]; exact ⟨e1, rfl⟩
      | ok y =>
        obtain ⟨e, hmap⟩ := ih x h ⟨e0, he0⟩
        rw [exceptBind_ok, hmap, exceptBind_error]
        exact ⟨e, rfl⟩

theorem mapM_ok_length {α β : Type} (f : α → Except String β) :
    ∀ (xs : List α) (ys : List β), xs.mapM f = Except.ok ys → ys.length = xs.length := by
  intro xs
  induction xs with
  | nil =>
    intro ys h
    simp only [List.mapM_nil, pure, Except.pure] at h
    cases h
    rfl
  | cons a as ih =>
    intro ys h
    rw [List.mapM_cons] at h
    cases hfa : f a with
    | error e => rw [hfa, exceptBind_error] at h; cases h
    | ok y =>
      rw [hfa, exceptBind_ok] at h
      cases hmas : as.mapM f with
      | error e => rw [hmas, exceptBind_error] at h; cases h
      | ok ys0 =>
        rw [hmas, exceptBind_ok] at h
        have : y :: ys0 = ys := by
          have h2 := h
          simp only [pure, Except.pure] at h2
          exact (Except.ok.injEq _ _).mp h2
        subst this
        simp [ih ys0 hmas]

theorem update_one_of_find_one_none (sets : Document) :
    ∀ (coll : List Document) (task_id : String),
      find_one coll task_id = Option.none → update_one coll task_id sets = (coll, 0) := by
  intro coll
  induction coll with
  | nil => intro task_id h; rfl
  | cons d ds ih =>
    intro task_id h
    unfold find_one at h
    by_cases hm : dget d "_id" = some (DVal.str task_id)
    · rw [if_pos hm] at h; cases h
    · rw [if_neg hm] at h
      unfold update_one
      rw [if_neg hm, ih task_id h]

theorem jLookup_filter (fields : List (String × JVal)) (k : String)
    (hk : taskInputKeys.contains k = true) :
    jLookup (fields.filter (fun kv => taskInputKeys.contains kv.1)) k = jLookup fields k := by
  induction fields with
  | nil => rfl
  | cons kv rest ih =>
    obtain ⟨k0, v⟩ := kv
    by_cases hkk : k0 = k
    · subst hkk
      simp only [List.filter_cons, hk, reduceIte, jLookup, if_pos]
    · cases hc : taskInputKeys.contains k0 with
      | true =>
        simp only [List.filter_cons, hc, reduceIte, jLookup, if_neg hkk]
        exact ih
      | false =>
        simp only [List.filter_cons, hc, reduceIte, jLookup, if_neg hkk]
        exact ih

theorem validateTaskInput_filter (fields : List (String × JVal)) :
    validateTaskInput (JVal.obj fields)
      = validateTaskInput (JVal.obj (fields.filter (fun kv => taskInputKeys.contains kv.1))) := by
  simp only [validateTaskInput]
  rw [jLookup_filter fields "title" (by decide),
    jLookup_filter fields "body" (by decide),
    jLookup_filter fields "due_date" (by decide),
    jLookup_filter fields "estimated_time" (by decide)]

theorem validateTaskInput_title_missing (fields : List (String × JVal))
    (h : jLookup fields "title" = Option.none) :
    validateTaskInput (JVal.obj fields) = Except.error "title: Field required" := by
  simp only [validateTaskInput]
  rw [h]
  rfl


/-! ## Claim theorems -/

/-- C1: for every task whose timestamp fields are valid datetimes (as every
task built from valid constructor inputs is), deserializing the serialized
document reproduces the task exactly on every field — enum members, the
due-date timestamp to the microsecond and UTC offset, and the audit fields
`_id`, `_created_at`, `_updated_at`, which are taken from the document
rather than from the freshly drawn oracle `g`. -/
theorem claim1_serialization_roundtrip (g : AuditGen) (t : Task)
    (hc : t._created_at.valid) (hu : t._updated_at.valid)
    (hd : ∀ d, t.due_date = some d → d.valid) :
    Task.from_dict g t.to_dict = Except.ok t := by
  obtain ⟨title, body, parent_id, status, priority, due_date, estimated_time, _id, _ca, _ua⟩ := t
  simp only at hc hu hd
  simp only [Task.to_dict, Task.from_dict, dget, String.reduceEq, reduceIte]
  rw [statusFromName_name, priorityFromName_name, fromisoformat_isoformat hc,
    fromisoformat_isoformat hu]
  cases due_date with
  | none => cases parent_id <;> simp [DVal.asStr, exceptBind_ok, DVal.truthy]
  | some d =>
    have hdv := hd d rfl
    cases parent_id <;>
      simp [DVal.asStr, exceptBind_ok, truthy_isoformat, DVal.pyStr,
        fromisoformat_isoformat hdv]

/-- C1 witness: the round trip evaluated at a concrete fully-populated
task and a fresh audit oracle distinct from the one that built it. -/
theorem claim1_serialization_roundtrip_witness :
    tEx._created_at.valid ∧ tEx._updated_at.valid ∧
    Task.from_dict ⟨"other-id", exDT2⟩ tEx.to_dict = Except.ok tEx :=
  ⟨by decide, by decide,
    claim1_serialization_roundtrip ⟨"other-id", exDT2⟩ tEx (by decide) (by decide)
      (by
        intro d h
        simp only [tEx, mkTask] at h
        injection h with h2
        subst h2
        decide)⟩

/-- C2 (code bug evidence): the subtask pipeline evaluated at a concrete
parent whose `_id` is `"parent-id"` and a model response
`[{"title": "Subtask 1"}]` produces one task whose `parent_id` is `None`,
not `some "parent-id"`: the conversion step never wires the parent link. -/
theorem claim2_parent_link_eval :
    (request_subtask exGen exModel exParent).map (fun ts => ts.map Task.parent_id)
      = Except.ok [Option.none]
    ∧ exParent._id = "parent-id"
    ∧ (Option.none : Option String) ≠ some exParent._id := by
  refine ⟨rfl, rfl, by decide⟩

/-- C3 counterexample: the sanitizer drops only the literal keys `'_id'`
and `'created_at'`, but stored documents name the creation timestamp
`'_created_at'`; an update payload with that key passes through the
sanitizer and `update_task` then rewrites the stored creation timestamp
(and returns true), so "an update can never alter the creation timestamp"
is false. -/
theorem claim3_counterexample :
    _prepare_updates [("_created_at", DVal.str "1999-01-01T00:00:00+00:00")]
      = [("_created_at", DVal.str "1999-01-01T00:00:00+00:00")]
    ∧ (update_task [[("_id", DVal.str "a"), ("_created_at", DVal.str "2020-01-01T00:00:00+00:00")]]
        "a" [("_created_at", DVal.str "1999-01-01T00:00:00+00:00")]).ok = true
    ∧ (update_task [[("_id", DVal.str "a"), ("_created_at", DVal.str "2020-01-01T00:00:00+00:00")]]
        "a" [("_created_at", DVal.str "1999-01-01T00:00:00+00:00")]).coll
      = [[("_id", DVal.str "a"), ("_created_at", DVal.str "1999-01-01T00:00:00+00:00")]] := by
  refine ⟨rfl, rfl, rfl⟩

/-- C3 amended: for every partial-update mapping the sanitizer removes
exactly the keys `'_id'` and `'created_at'` (the literal strings the code
tests; the stored creation-time field `'_created_at'` is not removed);
among the remaining entries every `Status`/`Priority` value is replaced by
its symbolic name string, every datetime is normalized with
`astimezone(timezone.utc)` (offset becomes zero), and every other value
passes through unchanged — including the two behaviours the spec gives as
examples. -/
theorem claim3_amended (updates : Document) (d : DateTime) :
    _prepare_updates updates
      = (updates.filter (fun kv => !(kv.1 == "_id" || kv.1 == "created_at"))).map
          (fun kv => (kv.1, prepVal kv.2))
    ∧ dget (_prepare_updates updates) "_id" = Option.none
    ∧ dget (_prepare_updates updates) "created_at" = Option.none
    ∧ _prepare_updates [("_id", DVal.str "x"), ("created_at", DVal.str "y"),
        ("title", DVal.str "New")] = [("title", DVal.str "New")]
    ∧ _prepare_updates [("status", DVal.status .COMPLETED), ("priority", DVal.priority .LOW),
        ("due_date", DVal.dt d)]
      = [("status", DVal.str "COMPLETED"), ("priority", DVal.str "LOW"),
         ("due_date", DVal.dt (astimezoneUtc d))]
    ∧ (astimezoneUtc d).offsetMinutes = 0 :=
  ⟨prepare_updates_filter_map updates,
    dget_prepare_updates_dropped updates "_id" (Or.inl rfl),
    dget_prepare_updates_dropped updates "created_at" (Or.inr rfl),
    rfl, rfl, rfl⟩

/-- C4 counterexample: an array element carrying an unknown field
(`unknown_field`) together with a valid `title` is accepted — the batch
does not fail and one task is returned — because the pydantic model uses
the default `extra='ignore'` configuration; strict rejection of unknown
fields is not what the code does. -/
theorem claim4_counterexample :
    convert_response exGen
        (Raw.json (JVal.arr [JVal.obj [("title", JVal.str "A"), ("unknown_field", JVal.num 1)]]))
      = Except.ok [mkTaskDefault "A" (exGen 0)] := rfl

/-- C4 amended: malformed JSON fails the whole call; an element missing the
required `title` fails the whole batch with a single error (no element is
partially accepted: a successful batch yields exactly one task per array
element); unknown fields, however, are silently ignored — validating an
object equals validating it with only the `TaskInput` keys kept. -/
theorem claim4_amended (gen : Nat → AuditGen) :
    (∃ e, convert_response gen Raw.malformed = Except.error e)
    ∧ (∀ (xs : List JVal) (fields : List (String × JVal)),
        JVal.obj fields ∈ xs → jLookup fields "title" = Option.none →
        ∃ e, convert_response gen (Raw.json (JVal.arr xs)) = Except.error e)
    ∧ (∀ (xs : List JVal) (ts : List Task),
        convert_response gen (Raw.json (JVal.arr xs)) = Except.ok ts →
        ts.length = xs.length)
    ∧ (∀ (fields : List (String × JVal)),
        validateTaskInput (JVal.obj fields)
          = validateTaskInput (JVal.obj (fields.filter (fun kv => taskInputKeys.contains kv.1)))) := by
  refine ⟨⟨"Invalid JSON", rfl⟩, ?_, ?_, validateTaskInput_filter⟩
  · intro xs fields hmem htitle
    obtain ⟨e, hmapm⟩ := mapM_error_of_mem validateTaskInput xs (JVal.obj fields) hmem
      ⟨"title: Field required", validateTaskInput_title_missing fields htitle⟩
    refine ⟨e, ?_⟩
    simp only [convert_response, validateTaskInputList]
    rw [hmapm]
    rfl
  · intro xs ts h
    simp only [convert_response, validateTaskInputList] at h
    cases hv : xs.mapM validateTaskInput with
    | error e => rw [hv, exceptBind_error] at h; cases h
    | ok v =>
      rw [hv, exceptBind_ok] at h
      have h1 := mapM_ok_length _ v.enum ts h
      have h2 := mapM_ok_length validateTaskInput xs v hv
      rw [h1, List.enum_length, h2]

/-- C4 amended witness: the missing-`title` case instantiated at the
one-element array `[{}]`: the whole call fails with an error. -/
theorem claim4_amended_witness :
    (JVal.obj [] ∈ [JVal.obj []])
    ∧ (∃ e, convert_response exGen (Raw.json (JVal.arr [JVal.obj []])) = Except.error e) :=
  ⟨by simp, (claim4_amended exGen).2.1 [JVal.obj []] [] (by simp) rfl⟩

/-- C5 counterexample: with a failing document ahead of a cleanly
reconstructing one, `get_all_tasks` returns the empty list — the good
document's task is not returned, so the scan does not "skip and continue".
The second conjunct shows the second document does reconstruct cleanly. -/
theorem claim5_counterexample :
    get_all_tasks exGen [exBadDoc, exGoodDoc] = []
    ∧ Task.from_dict (exGen 1) exGoodDoc = Except.ok (mkTaskDefault "G" (exGen 1)) :=
  ⟨rfl, rfl⟩

/-- C5 amended: `get_all_tasks` returns the tasks reconstructed from the
longest clean prefix of the collection: the first document whose
reconstruction fails ends the scan (with a logged note) and it and every
later document are dropped, while the tasks accumulated before the failure
are still returned. -/
theorem claim5_amended (gen : Nat → AuditGen) (docs : List Document) :
    get_all_tasks gen docs = tasksOfCleanRun gen 0 docs := by
  simp [get_all_tasks, get_all_tasks_go_eq]

/-- C6 (code bug evidence): `Task` construction performs no validation:
with an empty title and a negative estimate the constructor still produces
a task carrying exactly those values — no `ValidationError` is raised
anywhere in `__post_init__`, which only sets the audit timestamps. -/
theorem claim6_no_validation_eval :
    (mkTask "" "" Option.none Status.TODO Priority.MEDIUM Option.none (-5) exGen0).title = ""
    ∧ (mkTask "" "" Option.none Status.TODO Priority.MEDIUM Option.none (-5) exGen0).estimated_time
        = -5
    ∧ (mkTask "" "" Option.none Status.TODO Priority.MEDIUM Option.none (-5) exGen0)._created_at
        = exGen0.now :=
  ⟨rfl, rfl, rfl⟩

/-- C7: `update_task` first sanitizes the updates; when the sanitized
payload is empty it returns false, touches no storage and leaves the
collection unchanged; otherwise it issues exactly one `update_one` carrying
a `$set` of the sanitized payload filtered to the given id, and returns
true exactly when that operation modified one document; in particular when
no stored document matches the id the result is false. -/
theorem claim7_update_task (coll : List Document) (task_id : String) (updates : Document) :
    (_prepare_updates updates = [] →
      update_task coll task_id updates = ⟨false, coll, 0⟩)
    ∧ (_prepare_updates updates ≠ [] →
        (update_task coll task_id updates).storageCalls = 1
        ∧ (update_task coll task_id updates).coll
            = (update_one coll task_id (_prepare_updates updates)).1
        ∧ ((update_task coll task_id updates).ok = true
            ↔ (update_one coll task_id (_prepare_updates updates)).2 = 1))
    ∧ (find_one coll task_id = Option.none → (update_task coll task_id updates).ok = false) := by
  refine ⟨?_, ?_, ?_⟩
  · intro h
    simp [update_task, h]
  · intro h
    simp [update_task, h]
  · intro h
    by_cases hp : _prepare_updates updates = []
    · simp [update_task, hp]
    · simp [update_task, hp, update_one_of_find_one_none _ coll task_id h]

/-- C7 witness: an update carrying only `_id` and `created_at` sanitizes to
the empty payload, so `update_task` returns false with zero storage calls. -/
theorem claim7_update_task_witness :
    _prepare_updates [("_id", DVal.str "x"), ("created_at", DVal.str "y")] = []
    ∧ update_task [] "task-1" [("_id", DVal.str "x"), ("created_at", DVal.str "y")]
        = ⟨false, [], 0⟩ :=
  ⟨rfl, (claim7_update_task [] "task-1" [("_id", DVal.str "x"), ("created_at", DVal.str "y")]).1 rfl⟩

/-- C8: immediately after construction `_created_at = _updated_at`;
`mark_updated` never changes `_created_at`; when the clock reading passed
to `mark_updated` is later than the stored `_updated_at`, the new
`_updated_at` is strictly greater than the previous one; and under the same
clock assumption `_created_at ≤ _updated_at` is preserved. -/
theorem claim8_audit_timestamps :
    (∀ (title body : String) (pid : Option String) (st : Status) (pr : Priority)
        (due : Option DateTime) (est : Int) (g : AuditGen),
        (mkTask title body pid st pr due est g)._created_at
          = (mkTask title body pid st pr due est g)._updated_at)
    ∧ (∀ (t : Task) (now : DateTime),
        (t.mark_updated now)._created_at = t._created_at)
    ∧ (∀ (t : Task) (now : DateTime), t._updated_at.lt now →
        t._updated_at.lt (t.mark_updated now)._updated_at)
    ∧ (∀ (t : Task) (now : DateTime),
        t._created_at.le t._updated_at → t._updated_at.lt now →
        (t.mark_updated now)._created_at.le (t.mark_updated now)._updated_at) := by
  refine ⟨fun _ _ _ _ _ _ _ _ => rfl, fun _ _ => rfl, fun t now h => h, ?_⟩
  intro t now h1 h2
  unfold DateTime.le at *
  unfold DateTime.lt at h2
  simp only [Task.mark_updated]
  omega

/-- C8 witness: the strict-increase conjunct applied at a concrete task and
a strictly later clock reading. -/
theorem claim8_audit_timestamps_witness :
    (mkTaskDefault "A" exGen0)._updated_at.lt exDT2
    ∧ (mkTaskDefault "A" exGen0)._updated_at.lt
        ((mkTaskDefault "A" exGen0).mark_updated exDT2)._updated_at :=
  ⟨by decide, claim8_audit_timestamps.2.2.1 (mkTaskDefault "A" exGen0) exDT2 (by decide)⟩

/-- C9: `get_task` returns the reconstructed task (and prints no
diagnostic) when a document matches the id and reconstructs cleanly, and
returns the `None` sentinel with exactly one printed diagnostic both when
no document matches and when reconstruction of the matching document
fails. -/
theorem claim9_get_task (g : AuditGen) (coll : List Document) (task_id : String) :
    (find_one coll task_id = Option.none → get_task g coll task_id = (Option.none, 1))
    ∧ (∀ doc t, find_one coll task_id = some doc → Task.from_dict g doc = Except.ok t →
        get_task g coll task_id = (some t, 0))
    ∧ (∀ doc e, find_one coll task_id = some doc → Task.from_dict g doc = Except.error e →
        get_task g coll task_id = (Option.none, 1)) := by
  refine ⟨?_, ?_, ?_⟩
  · intro h
    simp [get_task, Task.from_dict_opt, h]
  · intro doc t h1 h2
    simp [get_task, Task.from_dict_opt, h1, h2]
  · intro doc e h1 h2
    simp [get_task, Task.from_dict_opt, h1, h2]

/-- C9 witness: the spec's scenario — a lookup against the empty store
returns the sentinel with one diagnostic. -/
theorem claim9_get_task_witness :
    find_one [] "missing" = Option.none
    ∧ get_task exGen0 [] "missing" = (Option.none, 1) :=
  ⟨rfl, (claim9_get_task exGen0 [] "missing").1 rfl⟩

/-- C10: `from_dict` reads only the seven init-field keys and the three
audit-field keys; every other key of the input document is silently
ignored — the result (success or failure alike) equals `from_dict` of the
document with the extra keys removed. -/
theorem claim10_extra_keys_ignored (g : AuditGen) (data : Document) :
    Task.from_dict g data = Task.from_dict g (removeExtraKeys data) := by
  unfold Task.from_dict
  rw [dget_removeExtraKeys data "title" (by decide),
    dget_removeExtraKeys data "body" (by decide),
    dget_removeExtraKeys data "parent_id" (by decide),
    dget_removeExtraKeys data "status" (by decide),
    dget_removeExtraKeys data "priority" (by decide),
    dget_removeExtraKeys data "due_date" (by decide),
    dget_removeExtraKeys data "estimated_time" (by decide),
    dget_removeExtraKeys data "_id" (by decide),
    dget_removeExtraKeys data "_created_at" (by decide),
    dget_removeExtraKeys data "_updated_at" (by decide)]

end StepStone
